import Mathlib

/-!
Verification of the crawl-decision and telemetry core of
spacetime-crawler4py against its specification.

The Python sources embedded here are `src/scraper.py` (the page
processor `scraper`, link extractor `extract_next_links` and scope
validator `is_valid`) and `src/console_monitor.py` (the telemetry
aggregator `ConsoleCrawlerMonitor`).  Pure functions become Lean
functions; the monitor's mutation methods become explicit
state-passing functions on `MonitorState`; code that can raise
returns `Except String`.  The Python standard-library URL primitives
(`urllib.parse.urlparse`, `urljoin`, `urldefrag`) and the external
HTML parser are modelled as executable Lean functions faithful to
their behavior on the URL shapes this repository feeds them; each
model notes its scope in its doc comment.
-/

namespace Crawler

/-- Does `needle` occur as a contiguous sublist of the second list?
Model of Python's `needle in hay` substring test. -/
def subOccurs (needle : List Char) : List Char → Bool
  | [] => needle.isEmpty
  | c :: rest => needle.isPrefixOf (c :: rest) || subOccurs needle rest

/-- Python's `needle in hay` on strings. -/
def strContainsSub (hay needle : String) : Bool :=
  subOccurs needle.data hay.data

/-- Python `str.lower()` restricted to ASCII. -/
def pyLower (s : String) : String :=
  String.mk (s.data.map Char.toLower)

/-- Python `s.endswith(p)`. -/
def pyEndsWith (s p : String) : Bool :=
  p.data.isSuffixOf s.data

/-- Python `s.startswith(p)`. -/
def pyStartsWith (s p : String) : Bool :=
  p.data.isPrefixOf s.data

/-- Python `s[1:]`. -/
def dropFirst (s : String) : String :=
  String.mk (s.data.drop 1)

/-- Components of a parsed URL as used by `is_valid`:
`scheme`, `netloc` and `path` of `urllib.parse.urlparse`. -/
structure UrlParts where
  scheme : String
  netloc : String
  path : String
deriving Repr, DecidableEq

/-- Characters allowed in a URL scheme after the leading letter. -/
def isSchemeChar (c : Char) : Bool :=
  c.isAlphanum || c == '+' || c == '-' || c == '.'

/-- A non-empty candidate scheme: a letter followed by scheme characters. -/
def validScheme : List Char → Bool
  | [] => false
  | c :: rest => c.isAlpha && rest.all isSchemeChar

/-- Model of `urllib.parse.urlparse` restricted to the fields `is_valid`
reads.  The scheme is everything before the first `:` when it is a
well-formed scheme token (then lowercased, as Python does); the netloc
follows a `//` and runs to the next `/`, `?` or `#`; the path runs to
the next `?` or `#`.  A netloc with `[` and `]` unbalanced raises
`ValueError("Invalid IPv6 URL")` in Python, modelled as `.error`. -/
def urlparse (url : String) : Except String UrlParts :=
  let cs := url.data
  let pre := cs.takeWhile (fun c => c != ':')
  let rest := if pre.length < cs.length && validScheme pre then cs.drop (pre.length + 1) else cs
  let scheme := if pre.length < cs.length && validScheme pre then String.mk (pre.map Char.toLower) else ""
  let netlocChars :=
    if ['/', '/'].isPrefixOf rest then
      (rest.drop 2).takeWhile (fun c => c != '/' && c != '?' && c != '#')
    else []
  let afterNetloc :=
    if ['/', '/'].isPrefixOf rest then (rest.drop 2).drop netlocChars.length else rest
  let netloc := String.mk netlocChars
  if (netlocChars.contains '[' && !netlocChars.contains ']')
      || (netlocChars.contains ']' && !netlocChars.contains '[') then
    .error "Invalid IPv6 URL"
  else
    .ok { scheme := scheme
          netloc := netloc
          path := String.mk (afterNetloc.takeWhile (fun c => c != '?' && c != '#')) }

/-- Model of `urllib.parse.urldefrag` (first component): the URL with
everything from the first `#` removed. -/
def urldefrag (url : String) : String :=
  String.mk (url.data.takeWhile (fun c => c != '#'))

/-- Scheme of a base URL (empty when the base does not parse). -/
def schemeOf (base : String) : String :=
  match urlparse base with
  | .ok p => p.scheme
  | .error _ => ""

/-- Netloc of a base URL (empty when the base does not parse). -/
def netlocOf (base : String) : String :=
  match urlparse base with
  | .ok p => p.netloc
  | .error _ => ""

/-- Path of a base URL (empty when the base does not parse). -/
def pathOf (base : String) : String :=
  match urlparse base with
  | .ok p => p.path
  | .error _ => ""

/-- The directory part of a path: everything up to and including the
last `/`, or `/` when the path has none. -/
def dirOf (path : String) : String :=
  let tailRev := path.data.reverse.dropWhile (fun c => c != '/')
  if tailRev.isEmpty then "/" else String.mk tailRev.reverse

/-- Does an href carry its own scheme followed by an authority
(`scheme://...`)?  Such hrefs are returned unchanged by `urljoin`. -/
def hrefIsAbsolute (href : String) : Bool :=
  let cs := href.data
  let pre := cs.takeWhile (fun c => c != ':')
  pre.length < cs.length && validScheme pre
    && ['/', '/'].isPrefixOf (cs.drop (pre.length + 1))

/-- Model of `urllib.parse.urljoin` for the href shapes the scraper
meets: absolute hrefs with a scheme are kept, protocol-relative and
root-relative hrefs are resolved against the base's scheme/netloc, and
other hrefs are appended to the base path's directory.  Dot-segment
normalization is not modelled (no claim exercises it). -/
def urljoin (base href : String) : String :=
  if href.data.isEmpty then base
  else if hrefIsAbsolute href then href
  else if pyStartsWith href "//" then schemeOf base ++ ":" ++ href
  else if pyStartsWith href "/" then schemeOf base ++ "://" ++ netlocOf base ++ href
  else schemeOf base ++ "://" ++ netlocOf base ++ dirOf (pathOf base) ++ href

/-- `allowed_domains` of `src/scraper.py:145`. -/
def allowed_domains : List String :=
  [".ics.uci.edu", ".cs.uci.edu", ".informatics.uci.edu", ".stat.uci.edu"]

/-- The extension alternatives of the regex at `src/scraper.py:158-166`
(`jpe?g` and `tiff?` expanded). -/
def disallowedExtensions : List String :=
  ["css", "js", "bmp", "gif", "jpg", "jpeg", "ico",
   "png", "tif", "tiff", "mid", "mp2", "mp3", "mp4",
   "wav", "avi", "mov", "mpeg", "ram", "m4v", "mkv", "ogg", "ogv", "pdf",
   "ps", "eps", "tex", "ppt", "pptx", "doc", "docx", "xls", "xlsx", "names",
   "data", "dat", "exe", "bz2", "tar", "msi", "bin", "7z", "psd", "dmg", "iso",
   "epub", "dll", "cnf", "tgz", "sha1",
   "thmx", "mso", "arff", "rtf", "jar", "csv",
   "rm", "smil", "wmv", "swf", "wma", "zip", "rar", "gz"]

/-- `re.match(r".*\.(css|...|gz)$", path.lower())`: on newline-free
paths the anchored regex holds exactly when the lowercased path ends
with a dot followed by one of the alternatives. -/
def hasDisallowedExt (path : String) : Bool :=
  disallowedExtensions.any (fun e => pyEndsWith (pyLower path) ("." ++ e))

/-- `is_valid` of `src/scraper.py:125-175`.  Parse failures propagate:
the only handler (`except TypeError`) re-raises. -/
def is_valid (url : String) : Except String Bool :=
  match urlparse url with
  | .error e => .error e
  | .ok parsed =>
    if !(["http", "https"].contains parsed.scheme) then .ok false
    else if !(allowed_domains.any (fun d =>
        pyEndsWith parsed.netloc d || parsed.netloc == dropFirst d)) then .ok false
    else if hasDisallowedExt parsed.path then .ok false
    else .ok true

/-- `stop_words` of `src/scraper.py:42`. -/
def stop_words : List String :=
  ["the", "a", "an", "and", "or", "but", "in", "on", "at", "to", "for"]

/-- Helper for `pySplit`: the accumulator holds the current token
reversed; whitespace closes a token, empty tokens are discarded. -/
def wsSplitAux : List Char → List Char → List (List Char)
  | [], acc => if acc.isEmpty then [] else [acc.reverse]
  | c :: rest, acc =>
    if c.isWhitespace then
      if acc.isEmpty then wsSplitAux rest [] else acc.reverse :: wsSplitAux rest []
    else wsSplitAux rest (c :: acc)

/-- Python `str.split()` with no argument: split on whitespace runs,
discarding empty pieces. -/
def pySplit (s : String) : List String :=
  (wsSplitAux s.data []).map String.mk

/-- Python `str.isalpha()` restricted to ASCII (the model's alphabet). -/
def isAlphaStr (w : String) : Bool :=
  w.data.all Char.isAlpha

/-- The word filter of `src/scraper.py:39-43`: lowercase, split on
whitespace, keep tokens longer than 2 characters that are purely
alphabetic and not stop words. -/
def filterWords (text : String) : List String :=
  (pySplit (pyLower text)).filter
    (fun w => w.length > 2 && isAlphaStr w && !(stop_words.contains w))

/-- What the external HTML parser (BeautifulSoup) extracts from a page:
the `href` targets of its anchor tags, in document order, and the
page's plain text (`soup.get_text()`). -/
structure Page where
  anchors : List String
  text : String
deriving Repr, DecidableEq

/-- A response body: its byte length and the outcome of handing the
bytes to the HTML parser (`.error` models the parser raising). Both
parse sites in `src/scraper.py` parse the same bytes with the same
parser, so they share this outcome. -/
structure Content where
  byteLength : Nat
  parsed : Except String Page
deriving Repr

/-- `resp.raw_response` of the fetch layer. -/
structure RawResponse where
  url : String
  content : Option Content
deriving Repr

/-- The fetch-layer response handed to `scraper`: final URL, HTTP
status, and the optional raw response. -/
structure Resp where
  url : String
  status : Nat
  raw_response : Option RawResponse
deriving Repr

/-- A call into the global monitor, in program order.  `log_url`'s
wall-clock `response_time` argument is elided (real time is outside
the embedding); no claim mentions it. -/
inductive MCall where
  | log_url (url : String) (status wc clen : Nat)
  | log_words (ws : List String)
  | detect_trap (url cat : String)
  | log_error (url msg : String)
deriving Repr, DecidableEq

/-- Byte length of the response body, 0 when absent
(`len(b'')` and the missing-content case coincide at 0). -/
def respContentLength (resp : Resp) : Nat :=
  match resp.raw_response with
  | some rr =>
    match rr.content with
    | some c => c.byteLength
    | none => 0
  | none => 0

/-- The parser outcome for the response body, when a body exists. -/
def respParse (resp : Resp) : Option (Except String Page) :=
  match resp.raw_response with
  | some rr =>
    match rr.content with
    | some c => some c.parsed
    | none => none
  | none => none

/-- The trap test of `src/scraper.py:111`:
`any(trap in defragged_url.lower() for trap in ['calendar', 'event'])`. -/
def isTrapUrl (u : String) : Bool :=
  strContainsSub (pyLower u) "calendar" || strContainsSub (pyLower u) "event"

/-- `extract_next_links` of `src/scraper.py:66-123`, returning the
collected links and the monitor calls it makes, in order.  Python's
truthiness test `not resp.raw_response.content` is false for `b''`,
so a zero-length body returns early without a trap report. -/
def extract_next_links (url : String) (resp : Resp) : List String × List MCall :=
  if resp.status != 200 then ([], [])
  else
    match resp.raw_response with
    | none => ([], [])
    | some rr =>
      match rr.content with
      | none => ([], [])
      | some c =>
        if c.byteLength = 0 then ([], [])
        else if c.byteLength < 500 then ([], [MCall.detect_trap url "low_content"])
        else
          match c.parsed with
          | .error e => ([], [MCall.log_error url e])
          | .ok page =>
            page.anchors.foldl
              (fun acc href =>
                let defragged := urldefrag (urljoin resp.url href)
                if isTrapUrl defragged then
                  (acc.1, acc.2 ++ [MCall.detect_trap defragged "calendar/event"])
                else
                  (acc.1 ++ [defragged], acc.2))
              ([], [])

/-- The list comprehension `[link for link in links if is_valid(link)]`:
evaluated left to right, the first `is_valid` exception aborts it. -/
def filterValid : List String → Except String (List String)
  | [] => .ok []
  | l :: ls =>
    match is_valid l with
    | .error e => .error e
    | .ok b =>
      match filterValid ls with
      | .error e => .error e
      | .ok rest => .ok (if b then l :: rest else rest)

/-- `scraper` of `src/scraper.py:7-64`: extract links, compute the
word count (status 200 and at least 500 content bytes; a parser
exception there is swallowed by `except ... pass`), log the visit,
and return the links `is_valid` accepts.  The result pairs the
returned links with the monitor calls made, in order; an uncaught
`is_valid` exception surfaces as `.error`. -/
def scraper (url : String) (resp : Resp) : Except String (List String × List MCall) :=
  let extracted := extract_next_links url resp
  let content_length := respContentLength resp
  let wordPart : Nat × List MCall :=
    if resp.status = 200 ∧ 500 ≤ content_length then
      match respParse resp with
      | some (.ok page) =>
        let ws := filterWords page.text
        (ws.length, [MCall.log_words ws])
      | some (.error _) => (0, [])
      | none => (0, [])
    else (0, [])
  match filterValid extracted.1 with
  | .error e => .error e
  | .ok valid =>
    .ok (valid, extracted.2 ++ wordPart.2
          ++ [MCall.log_url url resp.status wordPart.1 content_length])

/-- The mutable fields of `ConsoleCrawlerMonitor.__init__`
(`src/console_monitor.py:25-63`) that the embedded operations touch.
`defaultdict(int)` and `Counter` become total functions defaulting to
0; the wall-clock fields (`start_time`, `last_print`,
`response_times`) and `queue_size` are elided (no claim reads them). -/
structure MonitorState where
  total_crawled : Nat
  unique_urls : List String
  status_codes : Nat → Nat
  domains : String → Nat
  subdomains : String → Nat
  traps : String → Nat
  word_counter : String → Nat
  longest_page : String × Nat
  total_bytes : Nat
  recent_urls : List (String × Nat)
  recent_errors : List (String × String)

/-- The zeroed state built by `__init__`. -/
def initState : MonitorState :=
  { total_crawled := 0
    unique_urls := []
    status_codes := fun _ => 0
    domains := fun _ => 0
    subdomains := fun _ => 0
    traps := fun _ => 0
    word_counter := fun _ => 0
    longest_page := ("", 0)
    total_bytes := 0
    recent_urls := []
    recent_errors := [] }

/-- `f[k] += 1` on a `defaultdict(int)` viewed as a total function. -/
def bump {α : Type} [DecidableEq α] (f : α → Nat) (k : α) : α → Nat :=
  fun x => if x = k then f x + 1 else f x

/-- `_extract_domain` of `src/console_monitor.py:165-175` (the leading
underscore is dropped for Lean): an `elif` chain of substring tests
against the WHOLE url string. -/
def extract_domain (url : String) : Option String :=
  if strContainsSub url ".ics.uci.edu" then some "ics.uci.edu"
  else if strContainsSub url ".cs.uci.edu" then some "cs.uci.edu"
  else if strContainsSub url ".informatics.uci.edu" then some "informatics.uci.edu"
  else if strContainsSub url ".stat.uci.edu" then some "stat.uci.edu"
  else none

/-- The greedy host match of `re.search(r'https?://([^/]+\.uci\.edu)', url)`
at one candidate run: the longest prefix of the non-slash run that
ends in `.uci.edu` and has at least one character before it. -/
def longestUciPrefix (run : List Char) : Option (List Char) :=
  ((List.range (run.length + 1)).reverse.find?
    (fun k => decide (9 ≤ k) && (".uci.edu".data.isSuffixOf (run.take k)))).map
    (fun k => run.take k)

/-- Does `https?://` match at the head of `cs`?  If so, return what
follows the scheme.  (`http://` and `https://` cannot both match.) -/
def schemeAt (cs : List Char) : Option (List Char) :=
  if "https://".data.isPrefixOf cs then some (cs.drop 8)
  else if "http://".data.isPrefixOf cs then some (cs.drop 7)
  else none

/-- `re.search` semantics for the pattern above: try every start
position left to right; at a match of the scheme, the group is the
greedy `[^/]+\.uci\.edu` over the following non-slash run; if the run
has no such prefix the search continues at the next position. -/
def findSubdomain : List Char → Option String
  | [] => none
  | c :: rest =>
    match schemeAt (c :: rest) with
    | some after =>
      match longestUciPrefix (after.takeWhile (fun x => x != '/')) with
      | some p => some (String.mk p)
      | none => findSubdomain rest
    | none => findSubdomain rest

/-- `_extract_subdomain` of `src/console_monitor.py:177-180`. -/
def extract_subdomain (url : String) : Option String :=
  findSubdomain url.data

/-- `log_url` of `src/console_monitor.py:93-136`.  The source mutates
the fields one after another under `self.lock`; no update reads a
field another update wrote, so the net effect is this record.  The
`response_time`/`last_print` bookkeeping and the resulting
`print_stats` call are I/O and wall-clock effects outside the state. -/
def log_url (st : MonitorState) (url : String) (status wc clen : Nat) : MonitorState :=
  { total_crawled := st.total_crawled + 1
    unique_urls := if st.unique_urls.contains url then st.unique_urls else st.unique_urls ++ [url]
    status_codes := bump st.status_codes status
    domains :=
      match extract_domain url with
      | some d => bump st.domains d
      | none => st.domains
    subdomains :=
      match extract_subdomain url with
      | some s => bump st.subdomains s
      | none => st.subdomains
    traps := st.traps
    word_counter := st.word_counter
    longest_page := if wc > st.longest_page.2 then (url, wc) else st.longest_page
    total_bytes := st.total_bytes + clen
    recent_urls :=
      if (st.recent_urls ++ [(url, status)]).length > 10 then
        (st.recent_urls ++ [(url, status)]).drop 1
      else st.recent_urls ++ [(url, status)]
    recent_errors := st.recent_errors }

/-- One monitor call applied to the state: `log_words`
(`src/console_monitor.py:138-141`), `detect_trap` (143-147, its print
is I/O), `log_error` (149-158) and `log_url` as above. -/
def applyCall (st : MonitorState) : MCall → MonitorState
  | .log_url u s w c => log_url st u s w c
  | .log_words ws => { st with word_counter := ws.foldl (fun f w => bump f w) st.word_counter }
  | .detect_trap _ cat => { st with traps := bump st.traps cat }
  | .log_error u m =>
    { st with recent_errors :=
        if (st.recent_errors ++ [(u, m)]).length > 5 then
          (st.recent_errors ++ [(u, m)]).drop 1
        else st.recent_errors ++ [(u, m)] }

/-- A sequence of monitor calls applied in order. -/
def runCalls (st : MonitorState) (cs : List MCall) : MonitorState :=
  cs.foldl applyCall st

/-- A sequence of `log_url` calls given as (url, word_count) pairs
(status 200 and no bytes: the longest-page record reads neither). -/
def runLog (st : MonitorState) (calls : List (String × Nat)) : MonitorState :=
  calls.foldl (fun s c => log_url s c.1 200 c.2 0) st

/-- One invocation of the nested `exit_handler` of
`_setup_exit_handlers` (`src/console_monitor.py:65-91`): it performs
one full finalization pass (final report + `save_report`) and then
calls `sys.exit(0)` exactly when `signum is not None`.  Result:
(finalization passes performed, whether `sys.exit` was called). -/
def exit_handler (signum : Option Nat) : Nat × Bool :=
  (1, signum.isSome)

/-- Finalization passes on SIGINT, under Python runtime semantics: the
registered signal handler runs with `signum` set; `sys.exit(0)` raises
`SystemExit`, and interpreter exit then runs the `atexit`-registered
callback `exit_handler(None, None)`. -/
def finalizationsOnSigint : Nat :=
  let sigRun := exit_handler (some 2)
  sigRun.1 + (if sigRun.2 then (exit_handler none).1 else 0)

/-- Finalization passes on a normal (non-signaled) process exit: only
the `atexit` callback runs. -/
def finalizationsOnNormalExit : Nat :=
  (exit_handler none).1

/-- Events of a monitor operation relevant to the lock discipline:
acquiring/releasing `self.lock`, mutating shared state, and I/O
(printing or file writes). -/
inductive Ev where
  | acq
  | rel
  | io
  | mut
deriving Repr, DecidableEq

/-- Does the trace perform I/O while the lock is held? -/
def ioUnderLockAux : Nat → List Ev → Bool
  | _, [] => false
  | d, Ev.acq :: t => ioUnderLockAux (d + 1) t
  | d, Ev.rel :: t => ioUnderLockAux (d - 1) t
  | d, Ev.io :: t => decide (0 < d) || ioUnderLockAux d t
  | d, Ev.mut :: t => ioUnderLockAux d t

/-- Entry point of the lock-discipline check, starting unlocked. -/
def ioUnderLock (evs : List Ev) : Bool :=
  ioUnderLockAux 0 evs

/-- `detect_trap` (`src/console_monitor.py:143-147`): under
`with self.lock` it increments the trap counter (mut) and then prints
the trap notification (io), releasing only afterwards. -/
def detect_trapEvents : List Ev :=
  [Ev.acq, Ev.mut, Ev.io, Ev.rel]

/-- `print_stats` (`src/console_monitor.py:182-267`): under
`with self.lock` it sets `last_print` (mut) and prints the whole live
report (io) before releasing. -/
def print_statsEvents : List Ev :=
  [Ev.acq, Ev.mut, Ev.io, Ev.rel]

/-- `print_final_report` (`src/console_monitor.py:269-297`): prints
the whole final report under `with self.lock`. -/
def print_final_reportEvents : List Ev :=
  [Ev.acq, Ev.io, Ev.rel]

/-- `save_report` (`src/console_monitor.py:299-321`): opens and writes
the report file under `with self.lock`; only the trailing
`Report saved` print is outside the lock. -/
def save_reportEvents : List Ev :=
  [Ev.acq, Ev.io, Ev.rel, Ev.io]

/-- Outcome of one finalization pass of `exit_handler` given the
outcome the filesystem gives the report-file write. -/
structure FinalizeResult where
  consoleReportPrinted : Bool
  fileWritten : Bool
  savedMessagePrinted : Bool
  raised : Option String
deriving Repr, DecidableEq

/-- `save_report` (`src/console_monitor.py:299-321`) as a function of
the write outcome: the body has no `try`/`except`, so a failing write
raises out of the method; the `Report saved` print runs only after a
successful write.  Result: (outcome escaping to the caller, whether
the `Report saved` message was printed). -/
def save_report (writeOutcome : Except String Unit) : Except String Unit × Bool :=
  match writeOutcome with
  | .error e => (.error e, false)
  | .ok _ => (.ok (), true)

/-- The finalization pass of `exit_handler`
(`src/console_monitor.py:67-85`): banner, `print_final_report`
(console I/O, before the write), then `save_report`.  An exception
escaping `save_report` aborts the rest of the handler. -/
def runFinalize (writeOutcome : Except String Unit) : FinalizeResult :=
  match save_report writeOutcome with
  | (.error e, savedMsg) =>
    { consoleReportPrinted := true
      fileWritten := false
      savedMessagePrinted := savedMsg
      raised := some e }
  | (.ok _, savedMsg) =>
    { consoleReportPrinted := true
      fileWritten := true
      savedMessagePrinted := savedMsg
      raised := none }

/-- Claim C5 as stated: every non-200 attempt is logged with word
count zero AND content length zero, and no links are returned. -/
def claimC5Stated : Prop :=
  ∀ (url : String) (resp : Resp), resp.status ≠ 200 →
    scraper url resp = .ok ([], [MCall.log_url url resp.status 0 0])

/-- Claim C7 as stated: a failing report-file write is recovered
inside the finalization pass (nothing is raised to the caller). -/
def claimC7Stated : Prop :=
  ∀ e : String, (runFinalize (.error e)).raised = none

/-- The host (netloc) of the URL ends with `.` followed by the domain. -/
def hostEndsWithSuffix (url d : String) : Bool :=
  match urlparse url with
  | .ok p => pyEndsWith p.netloc ("." ++ d)
  | .error _ => false

/-- Claim C9 as stated: a domain counter is incremented exactly when
the URL's host component ends with that domain's dotted suffix. -/
def claimC9Stated : Prop :=
  ∀ (st : MonitorState) (url : String) (status wc clen : Nat) (d : String),
    d ∈ ["ics.uci.edu", "cs.uci.edu", "informatics.uci.edu", "stat.uci.edu"] →
    (log_url st url status wc clen).domains d
      = st.domains d + (if hostEndsWithSuffix url d then 1 else 0)

/-- The maximum word count over a call sequence (0 when empty). -/
def maxWc (calls : List (String × Nat)) : Nat :=
  calls.foldl (fun m c => max m c.2) 0

/-- URL of the first call whose word count equals `m` (empty string
when none does). -/
def firstMaxUrl (calls : List (String × Nat)) (m : Nat) : String :=
  ((calls.find? (fun c => c.2 == m)).map Prod.fst).getD ""

/-- Claim C10 as stated: after any non-empty sequence of `log_url`
calls the longest-page record holds the maximum word count ever
passed and the URL of the (first) call that achieved it. -/
def claimC10Stated : Prop :=
  ∀ calls : List (String × Nat), calls ≠ [] →
    (runLog initState calls).longest_page.2 = maxWc calls
    ∧ (runLog initState calls).longest_page.1 = firstMaxUrl calls (maxWc calls)

def resp404 : Resp :=
  { url := "https://www.stat.uci.edu/miss"
    status := 404
    raw_response := some
      { url := "https://www.stat.uci.edu/miss"
        content := some { byteLength := 600, parsed := .ok { anchors := [], text := "" } } } }

def respBad : Resp :=
  { url := "https://www.cs.uci.edu/bad"
    status := 200
    raw_response := some
      { url := "https://www.cs.uci.edu/bad"
        content := some { byteLength := 700, parsed := .error "bad markup" } } }

/-- The longest-page update of one `log_url` call. -/
def updPair (p c : String × Nat) : String × Nat :=
  if c.2 > p.2 then c else p

/-- The C1 test page: status 200, 10000 content bytes, the three
anchors of the spec's end-to-end example, and the given page text. -/
def mkResp (text : String) : Resp :=
  { url := "https://www.ics.uci.edu/page"
    status := 200
    raw_response := some
      { url := "https://www.ics.uci.edu/page"
        content := some
          { byteLength := 10000
            parsed := .ok { anchors := ["/a", "http://evil.com/b", "/calendar/c"], text := text } } } }

/-- 120 copies of the word `crawler`, whitespace-separated. -/
def text120 : String := String.mk ((List.replicate 120 "crawler ".data).flatten)

/-- C2: finalization must run exactly once per process lifetime.  The
code runs it once on a normal exit but TWICE on an operator interrupt:
the SIGINT handler finalizes and calls `sys.exit(0)`, which fires the
`atexit`-registered handler, finalizing again. -/
theorem c2_interrupt_double_finalization :
    finalizationsOnNormalExit = 1 ∧ finalizationsOnSigint = 2 := by
  constructor <;> rfl

/-- C3: the spec requires that no aggregator operation perform I/O
while holding the exclusive lock.  The code violates this in every
reporting operation: `detect_trap`, `print_stats`,
`print_final_report` and `save_report` all print or write the report
file inside `with self.lock`. -/
theorem c3_io_while_locked :
    ioUnderLock detect_trapEvents = true ∧ ioUnderLock print_statsEvents = true
    ∧ ioUnderLock print_final_reportEvents = true ∧ ioUnderLock save_reportEvents = true := by
  refine ⟨rfl, rfl, rfl, rfl⟩

/-- C7 counterexample: a failing report-file write is NOT recovered
inside `save_report` — the exception escapes to the caller. -/
theorem c7_write_failure_counterexample : ¬ claimC7Stated := by
  intro h
  have h1 := h "disk full"
  simp [runFinalize, save_report] at h1

/-- C7 amended: if writing the persisted report file fails, the
exception propagates out of `save_report` uncaught (no warning is
logged and the trailing success message is skipped); the console
final report still succeeds, but only because it is rendered before
the write in the finalization pass. -/
theorem c7_amended (e : String) :
    (runFinalize (.error e)).consoleReportPrinted = true
    ∧ (runFinalize (.error e)).raised = some e
    ∧ (runFinalize (.error e)).fileWritten = false
    ∧ (runFinalize (.error e)).savedMessagePrinted = false := by
  simp [runFinalize, save_report]

/-- C8: when the URL cannot be parsed into components (`urlparse`
raises), `is_valid` propagates the failure to its caller rather than
returning false: the only handler re-raises. -/
theorem c8_parse_failure_propagates (url e : String) (h : urlparse url = .error e) :
    is_valid url = .error e := by
  unfold is_valid
  rw [h]

/-- C8 witness: a concrete malformed URL (unbalanced `[` in the
netloc) makes `is_valid` signal the parse failure. -/
theorem c8_witness : is_valid "https://[abc/x" = .error "Invalid IPv6 URL" :=
  c8_parse_failure_propagates "https://[abc/x" "Invalid IPv6 URL" (by rfl)

/-- C5 amended: for every page whose status code is not 200, the
processor records the attempt with that status code, word count zero,
and content length equal to the byte length of any response body
present (zero only when the body is absent), and returns an empty
link set. -/
theorem c5_amended (url : String) (resp : Resp) (h : resp.status ≠ 200) :
    scraper url resp = .ok ([], [MCall.log_url url resp.status 0 (respContentLength resp)]) := by
  have hb : (resp.status != 200) = true := by simpa using h
  simp [scraper, extract_next_links, filterValid, hb, h]

/-- C5 witness: the amended statement at a concrete 404 response
with a 600-byte body. -/
theorem c5_amended_witness :
    scraper "https://www.stat.uci.edu/miss" resp404
      = .ok ([], [MCall.log_url "https://www.stat.uci.edu/miss" 404 0 600]) :=
  c5_amended "https://www.stat.uci.edu/miss" resp404 (by decide)

/-- C5 counterexample: a 404 response carrying a 600-byte error page
is logged with content length 600, not 0 as the claim states. -/
theorem c5_counterexample : ¬ claimC5Stated := by
  intro h
  have h1 := h "https://www.stat.uci.edu/miss" resp404 (by decide)
  have h2 : scraper "https://www.stat.uci.edu/miss" resp404
      = .ok ([], [MCall.log_url "https://www.stat.uci.edu/miss" 404 0 600]) := rfl
  rw [h1] at h2
  simp [resp404] at h2

lemma is_valid_char (url : String) (p : UrlParts) (h : urlparse url = .ok p) :
    is_valid url
      = .ok ((["http", "https"].contains p.scheme)
          && (allowed_domains.any (fun d => pyEndsWith p.netloc d || p.netloc == dropFirst d))
          && !(hasDisallowedExt p.path)) := by
  unfold is_valid
  rw [h]
  cases hb1 : (["http", "https"].contains p.scheme) <;>
    cases hb2 : (allowed_domains.any (fun d => pyEndsWith p.netloc d || p.netloc == dropFirst d)) <;>
      cases hb3 : hasDisallowedExt p.path <;>
        simp only [hb1, hb2, hb3] <;> rfl

/-- C4: `is_valid` accepts a URL (that parses) exactly when its
scheme is http or https, its host ends with one of the four fixed
allowed suffixes or equals a suffix minus its leading dot, and the
lowercased path does not end with a disallowed extension; and the four
concrete examples of the spec evaluate as stated. -/
theorem c4_scope_validator :
    (∀ (url : String) (p : UrlParts), urlparse url = .ok p →
      (is_valid url = .ok true ↔
        ((p.scheme = "http" ∨ p.scheme = "https")
          ∧ (∃ d ∈ allowed_domains, pyEndsWith p.netloc d = true ∨ p.netloc = dropFirst d)
          ∧ ¬ ∃ e ∈ disallowedExtensions, pyEndsWith (pyLower p.path) ("." ++ e) = true)))
    ∧ is_valid "https://vision.ics.uci.edu/papers" = .ok true
    ∧ is_valid "https://example.com/" = .ok false
    ∧ is_valid "https://www.ics.uci.edu/file.pdf" = .ok false
    ∧ is_valid "ftp://www.ics.uci.edu/" = .ok false := by
  refine ⟨?_, by rfl, by rfl, by rfl, by rfl⟩
  intro url p h
  rw [is_valid_char url p h]
  simp only [Except.ok.injEq, Bool.and_eq_true, Bool.not_eq_true]
  constructor
  · rintro ⟨⟨h1, h2⟩, h3⟩
    refine ⟨?_, ?_, ?_⟩
    · simpa [List.contains, beq_iff_eq] using h1
    · rcases List.any_eq_true.mp h2 with ⟨d, hd, hdd⟩
      exact ⟨d, hd, by simpa [Bool.or_eq_true, beq_iff_eq] using hdd⟩
    · rintro ⟨e, he, hee⟩
      have : hasDisallowedExt p.path = true := by
        unfold hasDisallowedExt
        exact List.any_eq_true.mpr ⟨e, he, hee⟩
      simp [this] at h3
  · rintro ⟨h1, ⟨d, hd, hdd⟩, h3⟩
    refine ⟨⟨?_, ?_⟩, ?_⟩
    · simpa [List.contains, beq_iff_eq] using h1
    · exact List.any_eq_true.mpr ⟨d, hd, by simpa [Bool.or_eq_true, beq_iff_eq] using hdd⟩
    · cases hh : hasDisallowedExt p.path
      · rfl
      · exfalso
        unfold hasDisallowedExt at hh
        rcases List.any_eq_true.mp hh with ⟨e, he, hee⟩
        exact h3 ⟨e, he, hee⟩

/-- C4 witness: the characterization instantiated at
`https://vision.ics.uci.edu/papers`, whose parse is discharged
concretely. -/
theorem c4_witness :
    is_valid "https://vision.ics.uci.edu/papers" = .ok true ↔
      ((("https" : String) = "http" ∨ ("https" : String) = "https")
        ∧ (∃ d ∈ allowed_domains,
            pyEndsWith "vision.ics.uci.edu" d = true ∨ ("vision.ics.uci.edu" : String) = dropFirst d)
        ∧ ¬ ∃ e ∈ disallowedExtensions, pyEndsWith (pyLower "/papers") ("." ++ e) = true) :=
  c4_scope_validator.1 "https://vision.ics.uci.edu/papers"
    { scheme := "https", netloc := "vision.ics.uci.edu", path := "/papers" } (by rfl)

/-- C6: when the HTML parser raises on a (200, >=500-byte) page, the
failure is recovered locally: the scraper returns an empty link set,
the page is logged with zero words, the error text is appended to the
bounded error ring (which stays within its capacity of 5), and no
failure escapes `scraper`. -/
theorem c6_parse_error_recovered (url : String) (resp : Resp) (rr : RawResponse)
    (c : Content) (e : String) (st : MonitorState)
    (hrr : resp.raw_response = some rr) (hc : rr.content = some c)
    (hst : resp.status = 200) (hlen : 500 ≤ c.byteLength) (hp : c.parsed = .error e) :
    scraper url resp
      = .ok ([], [MCall.log_error url e, MCall.log_url url resp.status 0 c.byteLength])
    ∧ (∃ pre, (runCalls st [MCall.log_error url e,
          MCall.log_url url resp.status 0 c.byteLength]).recent_errors = pre ++ [(url, e)])
    ∧ (st.recent_errors.length ≤ 5 →
        (runCalls st [MCall.log_error url e,
          MCall.log_url url resp.status 0 c.byteLength]).recent_errors.length ≤ 5) := by
  have h0 : ¬ (c.byteLength = 0) := by omega
  have h1 : ¬ (c.byteLength < 500) := by omega
  refine ⟨?_, ?_, ?_⟩
  · simp [scraper, extract_next_links, respContentLength, respParse, filterValid,
      hrr, hc, hst, hp, h0, h1, hlen]
  · simp only [runCalls, List.foldl, applyCall, log_url]
    by_cases h5 : (st.recent_errors ++ [(url, e)]).length > 5
    · refine ⟨st.recent_errors.drop 1, ?_⟩
      rw [if_pos h5]
      have hlen1 : 1 ≤ st.recent_errors.length := by
        simp [List.length_append] at h5
        omega
      exact List.drop_append_of_le_length hlen1
    · exact ⟨st.recent_errors, by rw [if_neg h5]⟩
  · intro hle
    simp only [runCalls, List.foldl, applyCall, log_url]
    by_cases h5 : (st.recent_errors ++ [(url, e)]).length > 5
    · rw [if_pos h5]
      simp [List.length_append] at h5 ⊢
      omega
    · rw [if_neg h5]
      simp [List.length_append] at h5 ⊢
      omega

/-- C6 witness: the recovery at a concrete page whose parser raises
`bad markup`, starting from the initial monitor state. -/
theorem c6_witness :
    scraper "https://www.cs.uci.edu/bad" respBad
      = .ok ([], [MCall.log_error "https://www.cs.uci.edu/bad" "bad markup",
          MCall.log_url "https://www.cs.uci.edu/bad" respBad.status 0 700])
    ∧ (∃ pre, (runCalls initState [MCall.log_error "https://www.cs.uci.edu/bad" "bad markup",
          MCall.log_url "https://www.cs.uci.edu/bad" respBad.status 0 700]).recent_errors
        = pre ++ [("https://www.cs.uci.edu/bad", "bad markup")])
    ∧ (initState.recent_errors.length ≤ 5 →
        (runCalls initState [MCall.log_error "https://www.cs.uci.edu/bad" "bad markup",
          MCall.log_url "https://www.cs.uci.edu/bad" respBad.status 0 700]).recent_errors.length ≤ 5) :=
  c6_parse_error_recovered "https://www.cs.uci.edu/bad" respBad
    { url := "https://www.cs.uci.edu/bad"
      content := some { byteLength := 700, parsed := .error "bad markup" } }
    { byteLength := 700, parsed := .error "bad markup" }
    "bad markup" initState rfl rfl rfl (by decide) rfl

lemma extract_domain_as_find (url : String) :
    extract_domain url
      = ["ics.uci.edu", "cs.uci.edu", "informatics.uci.edu", "stat.uci.edu"].find?
          (fun d => strContainsSub url ("." ++ d)) := by
  have e1 : (("." : String) ++ "ics.uci.edu") = ".ics.uci.edu" := rfl
  have e2 : (("." : String) ++ "cs.uci.edu") = ".cs.uci.edu" := rfl
  have e3 : (("." : String) ++ "informatics.uci.edu") = ".informatics.uci.edu" := rfl
  have e4 : (("." : String) ++ "stat.uci.edu") = ".stat.uci.edu" := rfl
  cases hb1 : strContainsSub url ".ics.uci.edu" <;>
    cases hb2 : strContainsSub url ".cs.uci.edu" <;>
      cases hb3 : strContainsSub url ".informatics.uci.edu" <;>
        cases hb4 : strContainsSub url ".stat.uci.edu" <;>
          simp [extract_domain, List.find?, e1, e2, e3, e4, hb1, hb2, hb3, hb4]

/-- C9 amended: `log_url` increments the domain counter for the
FIRST of the four fixed domains whose dotted suffix occurs as a
substring anywhere in the full URL string (and no counter otherwise),
and increments the subdomain counter exactly for the host-like token
the regex search extracts from the URL string — neither is derived by
suffix-matching the URL's host component. -/
theorem c9_amended (st : MonitorState) (url : String) (status wc clen : Nat) :
    (∀ d, (log_url st url status wc clen).domains d
      = st.domains d
        + (if (["ics.uci.edu", "cs.uci.edu", "informatics.uci.edu", "stat.uci.edu"].find?
              (fun D => strContainsSub url ("." ++ D))) = some d then 1 else 0))
    ∧ (∀ s, (log_url st url status wc clen).subdomains s
      = st.subdomains s + (if extract_subdomain url = some s then 1 else 0)) := by
  constructor
  · intro d
    rw [← extract_domain_as_find]
    simp only [log_url]
    cases hd : extract_domain url with
    | none => simp
    | some D =>
      by_cases hdD : d = D
      · subst hdD
        simp [bump]
      · simp [bump, hdD, Option.some.injEq, Ne.symm hdD]
  · intro s
    simp only [log_url]
    cases hs : extract_subdomain url with
    | none => simp
    | some S =>
      by_cases hsS : s = S
      · subst hsS
        simp [bump]
      · simp [bump, hsS, Option.some.injEq, Ne.symm hsS]

/-- C9 counterexample: `log_url` on
`https://example.com/x.ics.uci.edu` increments the `ics.uci.edu`
domain counter although the host `example.com` does not end with
`.ics.uci.edu`. -/
theorem c9_counterexample : ¬ claimC9Stated := by
  intro h
  have h1 := h initState "https://example.com/x.ics.uci.edu" 200 0 0 "ics.uci.edu"
    (List.mem_cons_self _ _)
  have h2 : (log_url initState "https://example.com/x.ics.uci.edu" 200 0 0).domains "ics.uci.edu"
      = 1 := by rfl
  have h3 : hostEndsWithSuffix "https://example.com/x.ics.uci.edu" "ics.uci.edu" = false := by rfl
  rw [h2, h3] at h1
  simp [initState] at h1

lemma runLog_longest (calls : List (String × Nat)) (st : MonitorState) :
    (runLog st calls).longest_page = calls.foldl updPair st.longest_page := by
  induction calls generalizing st with
  | nil => rfl
  | cons c cs ih =>
    show (runLog (log_url st c.1 200 c.2 0) cs).longest_page
        = cs.foldl updPair (updPair st.longest_page c)
    rw [ih]
    rfl

lemma updPair_snd (p c : String × Nat) : (updPair p c).2 = max p.2 c.2 := by
  simp only [updPair]
  split <;> omega

lemma foldl_updPair_snd (calls : List (String × Nat)) (p : String × Nat) :
    (calls.foldl updPair p).2 = calls.foldl (fun m c => max m c.2) p.2 := by
  induction calls generalizing p with
  | nil => rfl
  | cons c cs ih =>
    show (cs.foldl updPair (updPair p c)).2 = cs.foldl (fun m c => max m c.2) (max p.2 c.2)
    rw [ih, updPair_snd]

lemma le_foldl_max (calls : List (String × Nat)) (p : Nat) :
    p ≤ calls.foldl (fun m c => max m c.2) p := by
  induction calls generalizing p with
  | nil => simp
  | cons c cs ih =>
    exact le_trans (Nat.le_max_left p c.2) (ih (max p c.2))

lemma foldl_updPair_fst (calls : List (String × Nat)) (p : String × Nat) :
    (calls.foldl updPair p).1
      = if calls.foldl (fun m c => max m c.2) p.2 > p.2
        then firstMaxUrl calls (calls.foldl (fun m c => max m c.2) p.2)
        else p.1 := by
  induction calls generalizing p with
  | nil => simp
  | cons c cs ih =>
    show (cs.foldl updPair (updPair p c)).1 = _
    rw [ih]
    by_cases hc : c.2 > p.2
    · have hupd : updPair p c = c := by simp [updPair, hc]
      have hmax : max p.2 c.2 = c.2 := by omega
      have hM : c.2 ≤ cs.foldl (fun m c => max m c.2) c.2 := le_foldl_max cs c.2
      rw [hupd]
      have hfold : (c :: cs).foldl (fun m c => max m c.2) p.2
          = cs.foldl (fun m c => max m c.2) c.2 := by
        show cs.foldl (fun m c => max m c.2) (max p.2 c.2) = _
        rw [hmax]
      rw [hfold]
      by_cases h2 : cs.foldl (fun m c => max m c.2) c.2 > c.2
      · rw [if_pos h2, if_pos (by omega)]
        unfold firstMaxUrl
        rw [List.find?_cons_of_neg]
        simp only [beq_iff_eq]
        omega
      · have hMc : cs.foldl (fun m c => max m c.2) c.2 = c.2 := by omega
        rw [if_neg h2, if_pos (by omega)]
        unfold firstMaxUrl
        rw [hMc, List.find?_cons_of_pos _ (by simp)]
        rfl
    · have hupd : updPair p c = p := by simp [updPair, hc]
      have hmax : max p.2 c.2 = p.2 := by omega
      rw [hupd]
      have hfold : (c :: cs).foldl (fun m c => max m c.2) p.2
          = cs.foldl (fun m c => max m c.2) p.2 := by
        show cs.foldl (fun m c => max m c.2) (max p.2 c.2) = _
        rw [hmax]
      rw [hfold]
      by_cases h2 : cs.foldl (fun m c => max m c.2) p.2 > p.2
      · rw [if_pos h2, if_pos h2]
        unfold firstMaxUrl
        rw [List.find?_cons_of_neg]
        simp only [beq_iff_eq]
        omega
      · rw [if_neg h2, if_neg h2]

/-- C10 amended: after any sequence of `log_url` calls the
longest-page record's word count is the maximum of 0 and all word
counts passed, and its URL is the URL of the first call achieving
that maximum when the maximum is positive — ties never overwrite —
while if no call has a positive word count the URL remains the
initial empty string. -/
theorem c10_amended (calls : List (String × Nat)) :
    (runLog initState calls).longest_page.2 = maxWc calls
    ∧ (runLog initState calls).longest_page.1
      = (if maxWc calls = 0 then "" else firstMaxUrl calls (maxWc calls)) := by
  have h := runLog_longest calls initState
  constructor
  · rw [h, foldl_updPair_snd]
    rfl
  · rw [h, foldl_updPair_fst]
    by_cases h0 : maxWc calls = 0
    · rw [if_neg, if_pos h0]
      · rfl
      · show ¬ (calls.foldl (fun m c => max m c.2) ("", 0).2 > ("", 0).2)
        have : calls.foldl (fun m c => max m c.2) ("", 0).2 = maxWc calls := rfl
        omega
    · rw [if_pos, if_neg h0]
      · rfl
      · show calls.foldl (fun m c => max m c.2) ("", 0).2 > ("", 0).2
        have : calls.foldl (fun m c => max m c.2) ("", 0).2 = maxWc calls := rfl
        omega

/-- C10 counterexample: after a single call with word count 0 the
record still holds the initial empty URL, not the URL of the call
that achieved the maximum (0). -/
theorem c10_counterexample : ¬ claimC10Stated := by
  intro h
  have h1 := (h [("https://x.ics.uci.edu/", 0)] (by simp)).2
  have h2 : (runLog initState [("https://x.ics.uci.edu/", 0)]).longest_page.1 = "" := by rfl
  have h3 : firstMaxUrl [("https://x.ics.uci.edu/", 0)]
      (maxWc [("https://x.ics.uci.edu/", 0)]) = "https://x.ics.uci.edu/" := by rfl
  rw [h2, h3] at h1
  exact absurd h1 (by decide)

lemma c1_extract (text : String) :
    extract_next_links "https://www.ics.uci.edu/page" (mkResp text)
      = (["https://www.ics.uci.edu/a", "http://evil.com/b"],
         [MCall.detect_trap "https://www.ics.uci.edu/calendar/c" "calendar/event"]) := by
  unfold extract_next_links mkResp
  dsimp only
  decide

lemma c1_filter :
    filterValid ["https://www.ics.uci.edu/a", "http://evil.com/b"]
      = .ok ["https://www.ics.uci.edu/a"] := by
  have h1 : is_valid "https://www.ics.uci.edu/a" = .ok true := by rfl
  have h2 : is_valid "http://evil.com/b" = .ok false := by rfl
  simp [filterValid, h1, h2]

/-- C1: for a page with status 200, content length 10000, anchors
`/a`, `http://evil.com/b`, `/calendar/c`, and page text whose word
filter yields 120 words, the processor returns exactly the one
in-scope link resolved from `/a` against the page host, makes exactly
one visit record with word count 120, and the trap counter for
`calendar/event` is incremented by exactly 1. -/
theorem c1_end_to_end (text : String) (h : (filterWords text).length = 120) :
    scraper "https://www.ics.uci.edu/page" (mkResp text)
      = .ok (["https://www.ics.uci.edu/a"],
          [MCall.detect_trap "https://www.ics.uci.edu/calendar/c" "calendar/event",
           MCall.log_words (filterWords text),
           MCall.log_url "https://www.ics.uci.edu/page" 200 120 10000])
    ∧ ∀ st : MonitorState,
        (runCalls st
            [MCall.detect_trap "https://www.ics.uci.edu/calendar/c" "calendar/event",
             MCall.log_words (filterWords text),
             MCall.log_url "https://www.ics.uci.edu/page" 200 120 10000]).traps "calendar/event"
          = st.traps "calendar/event" + 1
        ∧ (runCalls st
            [MCall.detect_trap "https://www.ics.uci.edu/calendar/c" "calendar/event",
             MCall.log_words (filterWords text),
             MCall.log_url "https://www.ics.uci.edu/page" 200 120 10000]).total_crawled
          = st.total_crawled + 1 := by
  constructor
  · simp only [scraper]
    rw [c1_extract text]
    dsimp only [mkResp, respContentLength, respParse]
    rw [if_pos (⟨rfl, by norm_num⟩ : (200 : Nat) = 200 ∧ (500 : Nat) ≤ 10000)]
    dsimp only
    rw [c1_filter, h]
    simp
  · intro st
    constructor
    · simp [runCalls, applyCall, log_url, bump]
    · simp [runCalls, applyCall, log_url]

set_option maxRecDepth 4000 in
/-- C1 witness: the end-to-end run at a concrete text of 120
filtered words. -/
theorem c1_witness :
    (filterWords text120).length = 120
    ∧ scraper "https://www.ics.uci.edu/page" (mkResp text120)
      = .ok (["https://www.ics.uci.edu/a"],
          [MCall.detect_trap "https://www.ics.uci.edu/calendar/c" "calendar/event",
           MCall.log_words (filterWords text120),
           MCall.log_url "https://www.ics.uci.edu/page" 200 120 10000]) :=
  ⟨by decide, (c1_end_to_end text120 (by decide)).1⟩

end Crawler
